import Mathlib

/-!
Verification development for the OpenClaw memory engine
(`OpenClawMemory` class, TypeScript source).

The engine is shallowly embedded:

* the Supabase table `memories` becomes a `List Memory` passed
  explicitly to every operation;
* the Supabase query builder (`.eq`, `.or`, `.gte`, `.ilike`,
  `.order`, `.limit`) becomes filtering, a stable sort, and `take`
  over that list;
* the OpenAI embeddings call becomes an oracle
  `String → String → Except MemErr (List ℚ)` (model id, input text);
* the vector-similarity metric and the keyword-relevance metric of the
  store are abstract index operations, passed as parameters
  `sim : List ℚ → List ℚ → ℚ` and `kwRel : String → Memory → ℚ`;
* fallible operations return `Except MemErr _`.

JavaScript value defaulting is modelled precisely: `x ?? d` becomes
`Option.getD`, while `x || d` (which also replaces the falsy values
`0` and `""`) becomes `jsOrI` / `jsOrS` below.
-/

/-- JS `x || d` for an optional number: `undefined` and the falsy value
`0` are both replaced by the default. -/
def jsOrI (x : Option Int) (d : Int) : Int :=
  match x with
  | none => d
  | some v => if v = 0 then d else v

/-- JS `x || d` for an optional string: `undefined` and the falsy value
`""` are both replaced by the default. -/
def jsOrS (x : Option String) (d : String) : String :=
  match x with
  | none => d
  | some s => if s = "" then d else s

/-- Effective row cap produced by `opts.limit || 10`.  The store clamps a
negative cap to zero rows in this model (`Int.toNat`); no theorem below
depends on the negative case. -/
def effLimit (l : Option Int) : Nat :=
  (jsOrI l 10).toNat

/-- Does `hay` start with `needle`? (character lists) -/
def leadsWith : List Char → List Char → Bool
  | _, [] => true
  | [], _ :: _ => false
  | a :: as, b :: bs => a == b && leadsWith as bs

/-- Does `needle` occur contiguously inside `hay`? (character lists) -/
def hasInfix (needle : List Char) : List Char → Bool
  | [] => needle.isEmpty
  | c :: rest => leadsWith (c :: rest) needle || hasInfix needle rest

/-- The store filter `content ILIKE '%query%'`: case-insensitive
substring containment of the query text in the content.  (Wildcard
characters inside `query` are treated literally; no claim exercises
them.) -/
def ilikeMatch (content query : String) : Bool :=
  hasInfix (query.data.map Char.toLower) (content.data.map Char.toLower)

/-- A row of the `memories` table (interface `Memory`). -/
structure Memory where
  id : String
  agent_id : String
  user_id : Option String := none
  category : Option String := none
  content : String
  importance : ℚ
  source_session_id : Option String := none
  created_at : Nat
  updated_at : Nat := 0
  expires_at : Option String := none
  embedding : Option (List ℚ) := none
  metadata : List (String × String) := []
deriving DecidableEq, Repr

/-- A row of the `messages` table (interface `Message`). -/
structure Message where
  id : String
  session_id : String
  role : String
  content : String
  created_at : Nat
  metadata : List (String × String) := []
deriving DecidableEq, Repr

/-- The embedding provider selector (`'openai' | 'voyage' | 'none'`);
`pnone` models the literal `'none'`. -/
inductive EmbProvider where
  | openai
  | voyage
  | pnone
deriving DecidableEq, Repr

/-- Constructor-time configuration (`OpenClawMemoryConfig`). -/
structure OpenClawMemoryConfig where
  supabaseUrl : String := ""
  supabaseKey : String := ""
  agentId : String
  embeddingProvider : Option EmbProvider := none
  openaiApiKey : Option String := none
  embeddingModel : Option String := none
deriving DecidableEq, Repr

/-- Errors surfaced by the engine. -/
inductive MemErr where
  /-- `throw new Error('OpenAI API key not provided')` -/
  | openaiKeyMissing
  /-- `throw new Error('Voyage AI embeddings not yet implemented')` -/
  | voyageNotImplemented
  /-- a configured provider's network call failed -/
  | provider (msg : String)
  /-- the referenced row is absent (or lacks an embedding) -/
  | notFound
deriving DecidableEq, Repr

/-- The provider oracle: what the external embeddings API would answer
for a given model id and input text. -/
def EmbOracle : Type := String → String → Except MemErr (List ℚ)

/-- `generateEmbedding(text)`: `none` when no provider is configured or
the provider is `'none'`; an error when `openai` is selected without an
API key, when the provider call fails, or when `voyage` is selected
(unimplemented); otherwise the provider's vector.  The `openai` branch
mirrors `this.openai`, which the constructor's
`if (config.openaiApiKey)` sets only for a truthy — in particular
non-empty — key, and the model id
`config.embeddingModel || 'text-embedding-3-small'`. -/
def generateEmbedding (cfg : OpenClawMemoryConfig) (oracle : EmbOracle)
    (text : String) : Except MemErr (Option (List ℚ)) :=
  match cfg.embeddingProvider with
  | none => .ok none
  | some .pnone => .ok none
  | some .openai =>
    match cfg.openaiApiKey with
    | none => .error .openaiKeyMissing
    | some k =>
      if k = "" then .error .openaiKeyMissing
      else
        (oracle (jsOrS cfg.embeddingModel "text-embedding-3-small") text).map
          some
  | some .voyage => .error .voyageNotImplemented

/-- `a` may be listed before `b` under
`ORDER BY importance DESC, created_at DESC`. -/
def recallBefore (a b : Memory) : Prop :=
  b.importance < a.importance ∨
    (a.importance = b.importance ∧ b.created_at ≤ a.created_at)

instance : DecidableRel recallBefore := fun a b =>
  inferInstanceAs (Decidable (b.importance < a.importance ∨
    (a.importance = b.importance ∧ b.created_at ≤ a.created_at)))

instance : IsTotal Memory recallBefore where
  total a b := by
    rcases lt_trichotomy a.importance b.importance with h | h | h
    · exact Or.inr (Or.inl h)
    · rcases Nat.le_total b.created_at a.created_at with hc | hc
      · exact Or.inl (Or.inr ⟨h, hc⟩)
      · exact Or.inr (Or.inr ⟨h.symm, hc⟩)
    · exact Or.inl (Or.inl h)

instance : IsTrans Memory recallBefore where
  trans a b c hab hbc := by
    rcases hab with h1 | ⟨h1, h1c⟩ <;> rcases hbc with h2 | ⟨h2, h2c⟩
    · exact Or.inl (h2.trans h1)
    · exact Or.inl (h2 ▸ h1)
    · exact Or.inl (h1 ▸ h2)
    · exact Or.inr ⟨h1.trans h2, h2c.trans h1c⟩

/-- The stable sort realizing `ORDER BY importance DESC, created_at DESC`. -/
def sortMemories (l : List Memory) : List Memory :=
  l.insertionSort recallBefore

/-- Options accepted by `recall`. -/
structure RecallOpts where
  userId : Option String := none
  category : Option String := none
  limit : Option Int := none
  minImportance : Option ℚ := none
  minSimilarity : Option ℚ := none
deriving DecidableEq, Repr

/-- The row predicate assembled by the keyword-fallback query builder:
`eq('agent_id', …)`, then for a truthy `userId` (the empty string is
falsy and skips the filter) the disjunction
`user_id.eq.…,user_id.is.null`, for a truthy `category` (likewise
skipped at `""`) an equality, for a truthy `minImportance` (`0` is
falsy, so a zero threshold applies no filter) a `gte`, and finally
`ilike('content', '%query%')`. -/
def keywordPasses (agentId : String) (query : String) (opts : RecallOpts)
    (m : Memory) : Bool :=
  m.agent_id == agentId
    && (match opts.userId with
        | none => true
        | some u =>
          if u = "" then true
          else m.user_id == some u || m.user_id == none)
    && (match opts.category with
        | none => true
        | some c => if c = "" then true else m.category == some c)
    && (match opts.minImportance with
        | none => true
        | some mi => if mi = 0 then true else decide (mi ≤ m.importance))
    && ilikeMatch m.content query

/-- The keyword-fallback branch of `recall`: filter, order by importance
descending then created_at descending, cap at `opts.limit || 10`. -/
def keywordFallback (agentId : String) (store : List Memory)
    (query : String) (opts : RecallOpts) : List Memory :=
  (sortMemories (store.filter (keywordPasses agentId query opts))).take
    (effLimit opts.limit)

/-- Similarity of a row's stored embedding to the query vector (rows
without an embedding never contribute to vector ranking). -/
def memSim (sim : List ℚ → List ℚ → ℚ) (qe : List ℚ) (m : Memory) : ℚ :=
  match m.embedding with
  | some v => sim qe v
  | none => 0

/-- `a` may be listed before `b` under "similarity descending, ties by
importance descending then created_at descending". -/
def simBefore (score : Memory → ℚ) (a b : Memory) : Prop :=
  score b < score a ∨ (score a = score b ∧ recallBefore a b)

instance (score : Memory → ℚ) : DecidableRel (simBefore score) := fun a b =>
  inferInstanceAs (Decidable (score b < score a ∨
    (score a = score b ∧ recallBefore a b)))

instance (score : Memory → ℚ) : IsTotal Memory (simBefore score) where
  total a b := by
    rcases lt_trichotomy (score a) (score b) with h | h | h
    · exact Or.inr (Or.inl h)
    · rcases IsTotal.total (r := recallBefore) a b with hr | hr
      · exact Or.inl (Or.inr ⟨h, hr⟩)
      · exact Or.inr (Or.inr ⟨h.symm, hr⟩)
    · exact Or.inl (Or.inl h)

instance (score : Memory → ℚ) : IsTrans Memory (simBefore score) where
  trans a b c hab hbc := by
    rcases hab with h1 | ⟨h1, h1r⟩ <;> rcases hbc with h2 | ⟨h2, h2r⟩
    · exact Or.inl (h2.trans h1)
    · exact Or.inl (h2 ▸ h1)
    · exact Or.inl (h1 ▸ h2)
    · exact Or.inr ⟨h1.trans h2, Trans.trans h1r h2r⟩

/-- Modelled from the spec: the `match_memories` SQL RPC (migration
file, not under `src/`).  Semantic retrieval constrained to the agent's
rows, with the user filter matching rows whose `user_id` equals the
filter or is null, the category equality, `importance >= p_min_importance`
when that argument is non-null, and cosine similarity to the query
vector at least `match_threshold`; ordered by similarity descending,
capped at `match_count`.  Rows without an embedding never match. -/
def match_memories (sim : List ℚ → List ℚ → ℚ) (store : List Memory)
    (query_embedding : List ℚ) (match_threshold : ℚ) (match_count : Nat)
    (p_agent_id : String) (p_user_id p_category : Option String)
    (p_min_importance : Option ℚ) : List Memory :=
  let passes (m : Memory) : Bool :=
    m.agent_id == p_agent_id
      && (match p_user_id with
          | none => true
          | some u => m.user_id == some u || m.user_id == none)
      && (match p_category with
          | none => true
          | some c => m.category == some c)
      && (match p_min_importance with
          | none => true
          | some mi => decide (mi ≤ m.importance))
      && (match m.embedding with
          | none => false
          | some v => decide (match_threshold ≤ sim query_embedding v))
  ((store.filter passes).insertionSort
    (simBefore (memSim sim query_embedding))).take match_count

/-- `recall(query, opts)`: generate a query embedding; with a vector,
semantic retrieval through `match_memories` with
`match_threshold = opts.minSimilarity ?? 0.7` and
`match_count = opts.limit || 10`; without one, the keyword fallback. -/
def «recall» (cfg : OpenClawMemoryConfig) (oracle : EmbOracle)
    (sim : List ℚ → List ℚ → ℚ) (store : List Memory) (query : String)
    (opts : RecallOpts) : Except MemErr (List Memory) :=
  match generateEmbedding cfg oracle query with
  | .error e => .error e
  | .ok (some qe) =>
    .ok (match_memories sim store qe (opts.minSimilarity.getD (mkRat 7 10))
      (effLimit opts.limit) cfg.agentId opts.userId opts.category
      opts.minImportance)
  | .ok none => .ok (keywordFallback cfg.agentId store query opts)

example : ilikeMatch "I prefer TypeScript" "typescript" = true := by decide

example : ilikeMatch "likes coffee" "typescript" = false := by decide

example : ilikeMatch "anything at all" "" = true := by decide

/-- Options accepted by `hybridRecall`. -/
structure HybridOpts where
  userId : Option String := none
  category : Option String := none
  limit : Option Int := none
  minImportance : Option ℚ := none
  vectorWeight : Option ℚ := none
  keywordWeight : Option ℚ := none
deriving DecidableEq, Repr

/-- `hybridRecall` passes its whole `opts` object on to `recall` in the
fallback branch; `recall` reads only the fields below (its
`minSimilarity` comes out `undefined`). -/
def HybridOpts.toRecallOpts (o : HybridOpts) : RecallOpts :=
  { userId := o.userId, category := o.category, limit := o.limit
    minImportance := o.minImportance, minSimilarity := none }

/-- Modelled from the spec: the `hybrid_search_memories` SQL RPC
(migration file, not under `src/`).  Candidates are the rows passing
the shared filter set that appear in the vector candidate set (rows
with a stored embedding) or the keyword candidate set (rows whose
content matches the query text); each candidate's fused score is
`vector_weight * vectorScore + keyword_weight * keywordScore` with a
missing sub-score contributing 0, where `kwRel` is the store's
keyword-relevance metric normalized into `[0,1]`; results are
deduplicated by row identity (each stored row occurs once in the list),
ordered by fused score descending, and capped at `match_count`. -/
def hybrid_search_memories (sim : List ℚ → List ℚ → ℚ)
    (kwRel : String → Memory → ℚ) (store : List Memory)
    (query_embedding : List ℚ) (query_text : String)
    (vector_weight keyword_weight : ℚ) (match_count : Nat)
    (p_agent_id : String) (p_user_id p_category : Option String)
    (p_min_importance : Option ℚ) : List Memory :=
  let passes (m : Memory) : Bool :=
    m.agent_id == p_agent_id
      && (match p_user_id with
          | none => true
          | some u => m.user_id == some u || m.user_id == none)
      && (match p_category with
          | none => true
          | some c => m.category == some c)
      && (match p_min_importance with
          | none => true
          | some mi => decide (mi ≤ m.importance))
  let fused (m : Memory) : ℚ :=
    vector_weight * (match m.embedding with
      | some v => sim query_embedding v
      | none => 0)
      + keyword_weight *
        (if ilikeMatch m.content query_text then kwRel query_text m else 0)
  ((store.filter (fun m =>
      passes m && (m.embedding.isSome || ilikeMatch m.content query_text))).insertionSort
    (simBefore fused)).take match_count

/-- `hybridRecall(query, opts)`: weights default `0.7` / `0.3` via `??`;
with a query embedding, the hybrid RPC with `match_count = opts.limit || 10`;
without one, exactly `this.recall(query, opts)`. -/
def hybridRecall (cfg : OpenClawMemoryConfig) (oracle : EmbOracle)
    (sim : List ℚ → List ℚ → ℚ) (kwRel : String → Memory → ℚ)
    (store : List Memory) (query : String) (opts : HybridOpts) :
    Except MemErr (List Memory) :=
  let vectorWeight := opts.vectorWeight.getD (mkRat 7 10)
  let keywordWeight := opts.keywordWeight.getD (mkRat 3 10)
  match generateEmbedding cfg oracle query with
  | .error e => .error e
  | .ok (some qe) =>
    .ok (hybrid_search_memories sim kwRel store qe query vectorWeight
      keywordWeight (effLimit opts.limit) cfg.agentId opts.userId
      opts.category opts.minImportance)
  | .ok none => «recall» cfg oracle sim store query opts.toRecallOpts

/-- `forget(memoryId)`: `delete().eq('id', memoryId)` — the only filter
is the row id; no `agent_id` condition is attached. -/
def forget (store : List Memory) (memoryId : String) : List Memory :=
  store.filter (fun m => !(m.id == memoryId))

/-- Chronological (oldest first) order on messages. -/
def msgBefore (a b : Message) : Prop :=
  a.created_at ≤ b.created_at

instance : DecidableRel msgBefore := fun a b =>
  inferInstanceAs (Decidable (a.created_at ≤ b.created_at))

/-- `getMessages(sessionId, opts)`: the session's rows ordered by
`created_at` ascending, rows `offset … offset + limit - 1`
(`opts.offset || 0`, `opts.limit || 100`). -/
def getMessages (msgs : List Message) (sessionId : String)
    (offset limit : Option Int) : List Message :=
  (((msgs.filter (fun m => m.session_id == sessionId)).insertionSort
      msgBefore).drop (jsOrI offset 0).toNat).take (jsOrI limit 100).toNat

/-- Options accepted by `findSimilarMemories`. -/
structure SimilarOpts where
  minSimilarity : Option ℚ := none
  limit : Option Int := none
deriving DecidableEq, Repr

/-- Modelled from the spec: the `find_similar_memories` SQL RPC
(migration file, not under `src/`).  It looks up the stored embedding
of the referenced memory — failing with `NotFound` when the row is
absent or has no embedding — then performs vector-similarity retrieval
with that embedding as query vector against all other memories of the
same agent (the agent of the referenced row; the RPC receives no agent
argument), excluding the source row itself, ordered by similarity
descending, capped at `match_count`. -/
def find_similar_memories (sim : List ℚ → List ℚ → ℚ) (store : List Memory)
    (memory_id : String) (match_threshold : ℚ) (match_count : Nat) :
    Except MemErr (List Memory) :=
  match store.find? (fun m => m.id == memory_id) with
  | none => .error .notFound
  | some src =>
    match src.embedding with
    | none => .error .notFound
    | some v =>
      let passes (m : Memory) : Bool :=
        !(m.id == memory_id)
          && m.agent_id == src.agent_id
          && (match m.embedding with
              | none => false
              | some w => decide (match_threshold ≤ sim v w))
      .ok (((store.filter passes).insertionSort
        (simBefore (memSim sim v))).take match_count)

/-- `findSimilarMemories(memoryId, opts)`: the RPC with
`match_threshold = opts.minSimilarity ?? 0.8` and
`match_count = opts.limit || 5`. -/
def findSimilarMemories (sim : List ℚ → List ℚ → ℚ) (store : List Memory)
    (memoryId : String) (opts : SimilarOpts) : Except MemErr (List Memory) :=
  find_similar_memories sim store memoryId (opts.minSimilarity.getD (mkRat 4 5))
    (jsOrI opts.limit 5).toNat

/-- The argument object of `remember`. -/
structure RememberArgs where
  content : String
  category : Option String := none
  importance : Option ℚ := none
  userId : Option String := none
  sessionId : Option String := none
  expiresAt : Option String := none
  metadata : Option (List (String × String)) := none
deriving DecidableEq, Repr

/-- `remember(memory)`: embedding generation runs first and any of its
errors propagates before anything is inserted; on success the row is
inserted with `importance = memory.importance ?? 0.5` and
`metadata = memory.metadata || {}`.  The store assigns `id` and the
timestamps; they enter the model as `newId` / `now`.  Returns the
inserted row and the new store state. -/
def remember (cfg : OpenClawMemoryConfig) (oracle : EmbOracle)
    (store : List Memory) (args : RememberArgs) (newId : String)
    (now : Nat) : Except MemErr (Memory × List Memory) :=
  match generateEmbedding cfg oracle args.content with
  | .error e => .error e
  | .ok emb =>
    let row : Memory :=
      { id := newId
        agent_id := cfg.agentId
        user_id := args.userId
        category := args.category
        content := args.content
        importance := args.importance.getD (mkRat 1 2)
        source_session_id := args.sessionId
        created_at := now
        updated_at := now
        expires_at := args.expiresAt
        embedding := emb
        metadata := args.metadata.getD [] }
    .ok (row, store ++ [row])

/-- Options accepted by `getContext`. -/
structure ContextOpts where
  userId : Option String := none
  sessionId : Option String := none
  maxMemories : Option Int := none
  maxMessages : Option Int := none
deriving DecidableEq, Repr

/-- The payload returned by `getContext`. -/
structure ContextPayload where
  memories : List Memory
  recentMessages : List Message
  summary : String
deriving DecidableEq, Repr

/-- `getContext(query, opts)`: `recall` with the given `userId` and
`limit: opts.maxMemories || 5`; when `sessionId` is given, the
session's messages with `limit: opts.maxMessages || 20`; `summary` is
the fixed template over the recalled contents. -/
def getContext (cfg : OpenClawMemoryConfig) (oracle : EmbOracle)
    (sim : List ℚ → List ℚ → ℚ) (store : List Memory) (msgs : List Message)
    (query : String) (opts : ContextOpts) : Except MemErr ContextPayload :=
  match «recall» cfg oracle sim store query
      { userId := opts.userId, limit := some (jsOrI opts.maxMemories 5) } with
  | .error e => .error e
  | .ok memories =>
    let recentMessages : List Message :=
      match opts.sessionId with
      | none => []
      | some sid => getMessages msgs sid none (some (jsOrI opts.maxMessages 20))
    let memoryText :=
      String.intercalate "\n" (memories.map (fun m => "- " ++ m.content))
    let summary :=
      if memories.length > 0 then "Relevant memories:\n" ++ memoryText
      else "No relevant memories found."
    .ok { memories := memories, recentMessages := recentMessages
          summary := summary }

/-! ### Shared fixtures and helper lemmas -/

instance {ε α : Type} [DecidableEq ε] [DecidableEq α] :
    DecidableEq (Except ε α) := fun a b =>
  match a, b with
  | .error e, .error f => decidable_of_iff (e = f) (by simp)
  | .error _, .ok _ => .isFalse (fun h => Except.noConfusion h)
  | .ok _, .error _ => .isFalse (fun h => Except.noConfusion h)
  | .ok x, .ok y => decidable_of_iff (x = y) (by simp)

/-- A configuration with no embedding provider (keyword-only engine). -/
def cfgN : OpenClawMemoryConfig := { agentId := "a" }

/-- A configuration selecting the unimplemented Voyage provider. -/
def cfgV : OpenClawMemoryConfig :=
  { agentId := "a", embeddingProvider := some .voyage }

/-- A provider oracle (never consulted by the configurations above). -/
def oracleN : EmbOracle := fun _ _ => .ok [1]

/-- A degenerate similarity metric for keyword-only scenarios. -/
def simZ : List ℚ → List ℚ → ℚ := fun _ _ => 0

/-- A similarity metric rating every pair of vectors as identical. -/
def simOne : List ℚ → List ℚ → ℚ := fun _ _ => 1

/-- A degenerate keyword-relevance metric. -/
def kwZ : String → Memory → ℚ := fun _ _ => 0

def memA : Memory :=
  { id := "ma", agent_id := "a", content := "hello world", importance := 1,
    created_at := 2 }

def memB : Memory :=
  { id := "mb", agent_id := "a", content := "likes coffee", importance := 0,
    created_at := 1 }

def memNeg : Memory :=
  { id := "mn", agent_id := "a", content := "hello", importance := -1,
    created_at := 5 }

def memB2 : Memory :=
  { id := "bm", agent_id := "b", content := "other agent row",
    importance := 0, created_at := 3 }

def memE : Memory :=
  { id := "me", agent_id := "a", content := "dup hello", importance := mkRat 1 2,
    created_at := 4, embedding := some [1] }

def memF : Memory :=
  { id := "mf", agent_id := "a", content := "dup hello too",
    importance := mkRat 1 2, created_at := 3, embedding := some [1] }

def memG : Memory :=
  { id := "mg", agent_id := "a", content := "no vector", importance := mkRat 1 2,
    created_at := 9 }

/-- A row owned by user `"u2"`, used against an empty-string `userId`
filter. -/
def memU : Memory :=
  { id := "mu", agent_id := "a", user_id := some "u2", content := "hello",
    importance := 1, created_at := 1 }

/-- The row inserted by the concrete `remember` call of the C9 witness. -/
def rowX : Memory :=
  { id := "id1", agent_id := "a", content := "x",
    importance := mkRat 1 2, created_at := 7, updated_at := 7 }

/-- Six rows of agent `"a"`, all matching the query `"hello"`. -/
def store6 : List Memory :=
  [ { id := "s1", agent_id := "a", content := "hello 1", importance := 6,
      created_at := 1 },
    { id := "s2", agent_id := "a", content := "hello 2", importance := 5,
      created_at := 2 },
    { id := "s3", agent_id := "a", content := "hello 3", importance := 4,
      created_at := 3 },
    { id := "s4", agent_id := "a", content := "hello 4", importance := 3,
      created_at := 4 },
    { id := "s5", agent_id := "a", content := "hello 5", importance := 2,
      created_at := 5 },
    { id := "s6", agent_id := "a", content := "hello 6", importance := 1,
      created_at := 6 } ]

lemma hasInfix_nil (l : List Char) : hasInfix [] l = true := by
  cases l <;> simp [hasInfix, leadsWith]

lemma ilikeMatch_empty (content : String) : ilikeMatch content "" = true := by
  have h : ("" : String).data.map Char.toLower = [] := rfl
  rw [ilikeMatch, h, hasInfix_nil]

lemma mem_of_mem_take_insertionSort {α : Type} (r : α → α → Prop)
    [DecidableRel r] {l : List α} {n : Nat} {x : α}
    (h : x ∈ (l.insertionSort r).take n) : x ∈ l :=
  (List.mem_insertionSort r).mp (List.take_subset n _ h)

lemma length_take_insertionSort {α : Type} (r : α → α → Prop)
    [DecidableRel r] (l : List α) (n : Nat) :
    ((l.insertionSort r).take n).length ≤ n := by
  simp [List.length_take]

lemma pairwise_take_insertionSort {α : Type} (r : α → α → Prop)
    [DecidableRel r] [IsTotal α r] [IsTrans α r] (l : List α) (n : Nat) :
    ((l.insertionSort r).take n).Pairwise r :=
  (List.sorted_insertionSort r l).sublist (List.take_sublist n _)

lemma keywordPasses_spec {agentId q : String} {opts : RecallOpts} {m : Memory}
    (h : keywordPasses agentId q opts m = true) :
    m.agent_id = agentId
    ∧ (∀ u, opts.userId = some u → u ≠ "" →
        m.user_id = some u ∨ m.user_id = none)
    ∧ (∀ c, opts.category = some c → c ≠ "" → m.category = some c)
    ∧ (∀ mi, opts.minImportance = some mi → mi ≠ 0 → mi ≤ m.importance)
    ∧ ilikeMatch m.content q = true := by
  unfold keywordPasses at h
  simp only [Bool.and_eq_true] at h
  obtain ⟨⟨⟨⟨ha, hu⟩, hc⟩, hmi⟩, hil⟩ := h
  refine ⟨by simpa using ha, ?_, ?_, ?_, hil⟩
  · intro u hu' hne
    rw [hu'] at hu
    simp only [if_neg hne] at hu
    simpa using hu
  · intro c hc' hne
    rw [hc'] at hc
    simp only [if_neg hne] at hc
    simpa using hc
  · intro mi hmi' hne
    rw [hmi'] at hmi
    simp only [if_neg hne] at hmi
    exact of_decide_eq_true hmi

example : «recall» cfgN oracleN simZ [memNeg] "hello"
    { limit := some 0, minImportance := some 0 } = .ok [memNeg] := by decide

example : keywordFallback "a" [memA, memB] "hello" {} = [memA] := by decide

example : findSimilarMemories simOne [memE, memF] "me" {} = .ok [memF] := by
  decide

example : findSimilarMemories simOne [memG] "mg" {} = .error .notFound := by
  decide

lemma length_keywordFallback (agentId : String) (store : List Memory)
    (q : String) (opts : RecallOpts) :
    (keywordFallback agentId store q opts).length ≤ effLimit opts.limit :=
  length_take_insertionSort _ _ _

lemma mem_keywordFallback {agentId q : String} {store : List Memory}
    {opts : RecallOpts} {m : Memory}
    (h : m ∈ keywordFallback agentId store q opts) :
    m ∈ store ∧ keywordPasses agentId q opts m = true := by
  unfold keywordFallback sortMemories at h
  exact List.mem_filter.mp (mem_of_mem_take_insertionSort _ h)

lemma length_match_memories (sim : List ℚ → List ℚ → ℚ) (store : List Memory)
    (qe : List ℚ) (th : ℚ) (cnt : Nat) (ag : String)
    (pu pc : Option String) (pmi : Option ℚ) :
    (match_memories sim store qe th cnt ag pu pc pmi).length ≤ cnt :=
  length_take_insertionSort _ _ _

lemma mem_match_memories {sim : List ℚ → List ℚ → ℚ} {store : List Memory}
    {qe : List ℚ} {th : ℚ} {cnt : Nat} {ag : String}
    {pu pc : Option String} {pmi : Option ℚ} {m : Memory}
    (h : m ∈ match_memories sim store qe th cnt ag pu pc pmi) :
    m ∈ store ∧ m.agent_id = ag
    ∧ (∀ u, pu = some u → m.user_id = some u ∨ m.user_id = none)
    ∧ (∀ c, pc = some c → m.category = some c)
    ∧ (∀ mi, pmi = some mi → mi ≤ m.importance)
    ∧ (∃ v, m.embedding = some v ∧ th ≤ sim qe v) := by
  unfold match_memories at h
  obtain ⟨hs, hp⟩ := List.mem_filter.mp (mem_of_mem_take_insertionSort _ h)
  simp only [Bool.and_eq_true] at hp
  obtain ⟨⟨⟨⟨ha, hu⟩, hc⟩, hmi⟩, hemb⟩ := hp
  refine ⟨hs, by simpa using ha, ?_, ?_, ?_, ?_⟩
  · intro u h'
    rw [h'] at hu
    simpa using hu
  · intro c h'
    rw [h'] at hc
    simpa using hc
  · intro mi h'
    rw [h'] at hmi
    exact of_decide_eq_true hmi
  · cases hv : m.embedding with
    | none => rw [hv] at hemb; exact absurd hemb (by simp)
    | some v =>
      rw [hv] at hemb
      exact ⟨v, rfl, of_decide_eq_true hemb⟩

/-- **C1** is false on the code: with `limit = 0` the keyword path runs
`.limit(opts.limit || 10)`, and `0` being falsy the default cap `10` is
used, so a store holding a matching row produces a non-empty result. -/
theorem c1_counterexample :
    «recall» cfgN oracleN simZ [memNeg] "hello" { limit := some 0 } =
      .ok [memNeg]
    ∧ [memNeg] ≠ ([] : List Memory) := by decide

/-- **C1 (amended)**: for both strategies a supplied `limit = 0` is
replaced by the default cap `10` (`opts.limit || 10`), so `limit = 0`
behaves exactly like an unspecified limit — it neither yields an empty
sequence nor raises an error of its own. -/
theorem c1_amended_limit_zero_uses_default (cfg : OpenClawMemoryConfig)
    (oracle : EmbOracle) (sim : List ℚ → List ℚ → ℚ)
    (kwRel : String → Memory → ℚ) (store : List Memory) (q : String)
    (ro : RecallOpts) (ho : HybridOpts) :
    «recall» cfg oracle sim store q { ro with limit := some 0 } =
      «recall» cfg oracle sim store q { ro with limit := none }
    ∧ hybridRecall cfg oracle sim kwRel store q { ho with limit := some 0 } =
      hybridRecall cfg oracle sim kwRel store q { ho with limit := none } := by
  constructor
  · unfold «recall»
    cases generateEmbedding cfg oracle q with
    | error e => rfl
    | ok o =>
      cases o with
      | none => rfl
      | some qe => rfl
  · unfold hybridRecall «recall»
    cases generateEmbedding cfg oracle q with
    | error e => rfl
    | ok o =>
      cases o with
      | none => rfl
      | some qe => rfl

/-- **C2** is false on the code at the concrete inputs below: with
`limit = 0` the default cap `10` applies (`0` is falsy), so the result
is longer than the supplied limit; with `minImportance = 0` the
keyword path skips the importance filter (`if (opts.minImportance)`),
so a stored row with negative importance is returned; and with
`userId = ""` the keyword path skips the user filter
(`if (opts.userId)`), so a row owned by a different user is
returned. -/
theorem c2_counterexample :
    «recall» cfgN oracleN simZ [memNeg] "hello"
        { limit := some 0, minImportance := some 0 } = .ok [memNeg]
    ∧ ¬(([memNeg] : List Memory).length ≤ 0)
    ∧ ¬((0 : ℚ) ≤ memNeg.importance)
    ∧ «recall» cfgN oracleN simZ [memU] "hello" { userId := some "" } =
        .ok [memU]
    ∧ ¬(memU.user_id = some "" ∨ memU.user_id = none) := by decide

/-- **C2 (amended)**: every `recall` result is capped at the supplied
limit whenever that limit is positive (a zero limit falls back to the
default cap `10`), and every returned memory matches the `userId`
filter (equal owner or agent-global row) and the `category` filter
whenever the supplied filter string is non-empty (an empty string is
falsy and skips the keyword-path filter); the importance bound
`minImportance ≤ importance` is guaranteed only for a non-zero
`minImportance`, since a zero threshold is falsy and disables the
keyword-path filter. -/
theorem c2_amended_recall_cap_and_filters (cfg : OpenClawMemoryConfig)
    (oracle : EmbOracle) (sim : List ℚ → List ℚ → ℚ) (store : List Memory)
    (q : String) (opts : RecallOpts) (l : List Memory)
    (h : «recall» cfg oracle sim store q opts = .ok l) :
    (∀ n : Int, opts.limit = some n → 0 < n → l.length ≤ n.toNat)
    ∧ ∀ m ∈ l,
        (∀ u, opts.userId = some u → u ≠ "" →
          m.user_id = some u ∨ m.user_id = none)
        ∧ (∀ c, opts.category = some c → c ≠ "" → m.category = some c)
        ∧ (∀ mi, opts.minImportance = some mi → mi ≠ 0 →
            mi ≤ m.importance) := by
  have heff : ∀ n : Int, opts.limit = some n → 0 < n →
      effLimit opts.limit = n.toNat := by
    intro n hn hpos
    rw [hn]
    show ((if n = 0 then 10 else n) : Int).toNat = n.toNat
    rw [if_neg (by omega : ¬ n = 0)]
  unfold «recall» at h
  cases hg : generateEmbedding cfg oracle q with
  | error e => rw [hg] at h; cases h
  | ok o =>
    rw [hg] at h
    cases o with
    | some qe =>
      obtain rfl : _ = l := Except.ok.inj h
      constructor
      · intro n hn hpos
        exact (length_match_memories sim store qe
          (opts.minSimilarity.getD (mkRat 7 10)) (effLimit opts.limit)
          cfg.agentId opts.userId opts.category
          opts.minImportance).trans_eq (heff n hn hpos)
      · intro m hm
        obtain ⟨-, -, hu, hc, hmi, -⟩ := mem_match_memories hm
        exact ⟨fun u h' _ => hu u h', fun c h' _ => hc c h',
          fun mi h' _ => hmi mi h'⟩
    | none =>
      obtain rfl : _ = l := Except.ok.inj h
      constructor
      · intro n hn hpos
        exact (length_keywordFallback cfg.agentId store q opts).trans_eq
          (heff n hn hpos)
      · intro m hm
        obtain ⟨-, hp⟩ := mem_keywordFallback hm
        obtain ⟨-, hu, hc, hmi, -⟩ := keywordPasses_spec hp
        exact ⟨hu, hc, hmi⟩

/-- Witness for `c2_amended_recall_cap_and_filters` at a concrete
keyword-only call with all three filters supplied. -/
theorem c2_amended_witness :
    ([memA] : List Memory).length ≤ (1 : Int).toNat
    ∧ (memA.user_id = some "u" ∨ memA.user_id = none) := by
  have h := c2_amended_recall_cap_and_filters cfgN oracleN simZ [memA, memB]
    "hello"
    { userId := some "u", category := none, limit := some 1,
      minImportance := some 1 } [memA] (by decide)
  exact ⟨h.1 1 rfl (by decide), (h.2 memA (by decide)).1 "u" rfl (by decide)⟩

/-- **C3**: when the embedding provider is unconfigured or set to
`'none'` (the `Unavailable` cases), `hybridRecall` returns exactly
`this.recall(query, opts)` — the same query and the same options
object, whose `minSimilarity` field is `undefined`.  No hybrid
computation is attempted. -/
theorem c3_hybrid_degrades_to_recall (cfg : OpenClawMemoryConfig)
    (oracle : EmbOracle) (sim : List ℚ → List ℚ → ℚ)
    (kwRel : String → Memory → ℚ) (store : List Memory) (q : String)
    (opts : HybridOpts)
    (h : cfg.embeddingProvider = none ∨
      cfg.embeddingProvider = some .pnone) :
    hybridRecall cfg oracle sim kwRel store q opts =
      «recall» cfg oracle sim store q opts.toRecallOpts := by
  rcases h with h | h <;>
    · unfold hybridRecall generateEmbedding
      rw [h]

/-- Witness for `c3_hybrid_degrades_to_recall` at a concrete
unconfigured-provider instance. -/
theorem c3_witness :
    hybridRecall cfgN oracleN simZ kwZ [memA, memB] "hello" {} =
      «recall» cfgN oracleN simZ [memA, memB] "hello"
        (HybridOpts.toRecallOpts {}) :=
  c3_hybrid_degrades_to_recall cfgN oracleN simZ kwZ [memA, memB] "hello" {}
    (Or.inl rfl)

/-- **C4** is false on the code as frozen: the fallback is not "capped
at limit" at `limit = 0`, where the falsy `||` default caps at `10`
and all six matching rows come back; and it does not apply "the same
filters" at `minImportance = 0`, which is skipped, returning a row of
negative importance. -/
theorem c4_counterexample :
    «recall» cfgN oracleN simZ store6 "hello" { limit := some 0 } =
      .ok store6
    ∧ ¬(store6.length ≤ 0)
    ∧ «recall» cfgN oracleN simZ [memNeg] "hello"
        { limit := some 1, minImportance := some 0 } = .ok [memNeg]
    ∧ memNeg.importance < 0 := by decide

/-- **C4 (amended)**: whenever no embedding is available, `recall`
silently runs the keyword fallback and returns `.ok` (never an
error): the rows of the agent matching the ILIKE substring filter and
the supplied filters as the code applies them (truthy guards), ordered
by importance descending with ties by `created_at` descending, capped
at the effective limit `opts.limit || 10`. -/
theorem c4_keyword_fallback_shape (cfg : OpenClawMemoryConfig)
    (oracle : EmbOracle) (sim : List ℚ → List ℚ → ℚ) (store : List Memory)
    (q : String) (opts : RecallOpts)
    (h : generateEmbedding cfg oracle q = .ok none) :
    «recall» cfg oracle sim store q opts =
      .ok (keywordFallback cfg.agentId store q opts)
    ∧ (keywordFallback cfg.agentId store q opts).length ≤
        effLimit opts.limit
    ∧ (∀ m ∈ keywordFallback cfg.agentId store q opts,
        m ∈ store ∧ m.agent_id = cfg.agentId ∧
          ilikeMatch m.content q = true)
    ∧ (keywordFallback cfg.agentId store q opts).Pairwise recallBefore := by
  refine ⟨?_, length_keywordFallback _ _ _ _, ?_, ?_⟩
  · unfold «recall»
    rw [h]
  · intro m hm
    obtain ⟨hs, hp⟩ := mem_keywordFallback hm
    obtain ⟨ha, -, -, -, hil⟩ := keywordPasses_spec hp
    exact ⟨hs, ha, hil⟩
  · unfold keywordFallback sortMemories
    exact pairwise_take_insertionSort recallBefore _ _

/-- Witness for `c4_keyword_fallback_shape`: an unconfigured provider,
a two-row store, and the query `"hello"`; the fallback result is the
single matching row. -/
theorem c4_witness :
    «recall» cfgN oracleN simZ [memA, memB] "hello" {} =
      .ok (keywordFallback cfgN.agentId [memA, memB] "hello" {})
    ∧ keywordFallback cfgN.agentId [memA, memB] "hello" {} = [memA] :=
  ⟨(c4_keyword_fallback_shape cfgN oracleN simZ [memA, memB] "hello" {}
      (by decide)).1,
    by decide⟩

/-- **C5**: `remember` generates the embedding strictly before the
insert; if embedding generation fails with a fatal provider error, the
error propagates and no row is written — the resulting store state is
the unchanged input `store`, which the model expresses by `remember`
returning no successor store at all. -/
theorem c5_remember_aborts_on_embedding_error (cfg : OpenClawMemoryConfig)
    (oracle : EmbOracle) (store : List Memory) (args : RememberArgs)
    (newId : String) (now : Nat) (e : MemErr)
    (h : generateEmbedding cfg oracle args.content = .error e) :
    remember cfg oracle store args newId now = .error e := by
  unfold remember
  rw [h]

/-- Witness for `c5_remember_aborts_on_embedding_error`: the
unimplemented `'voyage'` provider makes `remember` fail without
writing. -/
theorem c5_witness :
    remember cfgV oracleN [] { content := "x" } "id1" 0 =
      .error .voyageNotImplemented :=
  c5_remember_aborts_on_embedding_error cfgV oracleN [] { content := "x" }
    "id1" 0 .voyageNotImplemented (by decide)

/-- **C6**: `getContext` obtains its memories from `recall` (never
`hybridRecall`) called with the given `userId` and
`limit: opts.maxMemories || 5`, and renders `summary` by the fixed
template: the literal fallback string when no memory was recalled,
otherwise the header line followed by one `- `-bulleted line per
memory content, in recall order and untruncated. -/
theorem c6_getContext_recall_and_template (cfg : OpenClawMemoryConfig)
    (oracle : EmbOracle) (sim : List ℚ → List ℚ → ℚ) (store : List Memory)
    (msgs : List Message) (q : String) (opts : ContextOpts)
    (p : ContextPayload)
    (h : getContext cfg oracle sim store msgs q opts = .ok p) :
    «recall» cfg oracle sim store q
        { userId := opts.userId, limit := some (jsOrI opts.maxMemories 5) } =
      .ok p.memories
    ∧ (p.memories = [] → p.summary = "No relevant memories found.")
    ∧ (p.memories ≠ [] → p.summary =
        "Relevant memories:\n" ++ String.intercalate "\n"
          (p.memories.map (fun m => "- " ++ m.content))) := by
  unfold getContext at h
  cases hr : «recall» cfg oracle sim store q
      { userId := opts.userId, limit := some (jsOrI opts.maxMemories 5) } with
  | error e => rw [hr] at h; exact Except.noConfusion h
  | ok mems =>
    rw [hr] at h
    obtain rfl : _ = p := Except.ok.inj h
    refine ⟨rfl, ?_, ?_⟩
    · intro he
      simp only at he
      simp [he]
    · intro he
      simp only at he
      have : mems.length > 0 := List.length_pos.mpr he
      simp [if_pos this]

/-- Witness for `c6_getContext_recall_and_template` at a concrete
keyword-only call with one recalled memory. -/
theorem c6_witness :
    «recall» cfgN oracleN simZ [memA] "hello"
        { userId := none, limit := some (jsOrI none 5) } = .ok [memA]
    ∧ ("Relevant memories:\n- hello world" : String) =
        "Relevant memories:\n" ++ String.intercalate "\n"
          ([memA].map (fun m => "- " ++ m.content)) := by
  have h := c6_getContext_recall_and_template cfgN oracleN simZ [memA] []
    "hello" {}
    { memories := [memA], recentMessages := [],
      summary := "Relevant memories:\n- hello world" } (by decide)
  exact ⟨h.1, h.2.2 (by decide)⟩

/-- **C7**: `findSimilarMemories` fails with `NotFound` when the
referenced memory is absent from the store or carries no stored
embedding; any successful result excludes the source memory id; and
the defaults are `minSimilarity = 0.8` and `limit = 5`. -/
theorem c7_findSimilar_notFound_and_excludes_self
    (sim : List ℚ → List ℚ → ℚ) (store : List Memory) (memoryId : String)
    (opts : SimilarOpts) :
    (store.find? (fun m => m.id == memoryId) = none →
      findSimilarMemories sim store memoryId opts = .error .notFound)
    ∧ (∀ src, store.find? (fun m => m.id == memoryId) = some src →
        src.embedding = none →
        findSimilarMemories sim store memoryId opts = .error .notFound)
    ∧ (∀ l, findSimilarMemories sim store memoryId opts = .ok l →
        ∀ m ∈ l, m.id ≠ memoryId)
    ∧ findSimilarMemories sim store memoryId {} =
        find_similar_memories sim store memoryId (mkRat 4 5) 5 := by
  refine ⟨?_, ?_, ?_, rfl⟩
  · intro hf
    unfold findSimilarMemories find_similar_memories
    rw [hf]
  · intro src hf he
    unfold findSimilarMemories find_similar_memories
    rw [hf]
    simp only [he]
  · intro l hl m hm
    unfold findSimilarMemories find_similar_memories at hl
    cases hf : store.find? (fun m => m.id == memoryId) with
    | none => rw [hf] at hl; exact Except.noConfusion hl
    | some src =>
      rw [hf] at hl
      cases he : src.embedding with
      | none =>
        simp only [he] at hl
        exact Except.noConfusion hl
      | some v =>
        simp only [he] at hl
        obtain rfl : _ = l := Except.ok.inj hl
        obtain ⟨-, hp⟩ := List.mem_filter.mp (mem_of_mem_take_insertionSort _ hm)
        simp only [Bool.and_eq_true] at hp
        obtain ⟨⟨hid, -⟩, -⟩ := hp
        simpa using hid

/-- Witness for `c7_findSimilar_notFound_and_excludes_self`: a
successful lookup whose result excludes the source id, and a
`NotFound` failure on a row without an embedding. -/
theorem c7_witness :
    memF.id ≠ "me"
    ∧ findSimilarMemories simOne [memG] "mg" {} = .error .notFound := by
  refine ⟨(c7_findSimilar_notFound_and_excludes_self simOne [memE, memF]
    "me" {}).2.2.1 [memF] (by decide) memF (by decide), ?_⟩
  exact (c7_findSimilar_notFound_and_excludes_self simOne [memG]
    "mg" {}).2.1 memG (by decide) (by decide)

/-- **C8** is false on the code: `forget` runs
`delete().eq('id', memoryId)` with no `agent_id` condition, so an
engine configured for agent `"a"` (`cfgN`) deletes a row belonging to
agent `"b"`. -/
theorem c8_counterexample :
    memB2.agent_id ≠ cfgN.agentId
    ∧ memB2 ∈ [memA, memB2]
    ∧ forget [memA, memB2] "bm" = [memA] := by decide

/-- **C8 (amended)**: the retrieval operations are agent-scoped — the
keyword fallback and the semantic RPC return only rows of the
configured `agentId`, and `findSimilarMemories` returns only rows of
the agent owning the referenced memory (the RPC receives no agent
argument) — but `forget` is not: it removes exactly the rows carrying
the given id, regardless of their `agent_id`. -/
theorem c8_amended_scoping (cfg : OpenClawMemoryConfig)
    (simf : List ℚ → List ℚ → ℚ) (store : List Memory) (q mid : String)
    (opts : RecallOpts) :
    (∀ m ∈ keywordFallback cfg.agentId store q opts,
      m.agent_id = cfg.agentId)
    ∧ (∀ qe th cnt,
        ∀ m ∈ match_memories simf store qe th cnt cfg.agentId opts.userId
          opts.category opts.minImportance, m.agent_id = cfg.agentId)
    ∧ (∀ m, m ∈ forget store mid ↔ m ∈ store ∧ ¬ m.id = mid)
    ∧ (∀ src sopts l, store.find? (fun m => m.id == mid) = some src →
        findSimilarMemories simf store mid sopts = .ok l →
        ∀ m ∈ l, m.agent_id = src.agent_id) := by
  refine ⟨?_, ?_, ?_, ?_⟩
  · intro m hm
    exact (keywordPasses_spec (mem_keywordFallback hm).2).1
  · intro qe th cnt m hm
    exact (mem_match_memories hm).2.1
  · intro m
    unfold forget
    rw [List.mem_filter]
    simp
  · intro src sopts l hf hl m hm
    unfold findSimilarMemories find_similar_memories at hl
    rw [hf] at hl
    cases he : src.embedding with
    | none =>
      simp only [he] at hl
      exact Except.noConfusion hl
    | some v =>
      simp only [he] at hl
      obtain rfl : _ = l := Except.ok.inj hl
      obtain ⟨-, hp⟩ := List.mem_filter.mp (mem_of_mem_take_insertionSort _ hm)
      simp only [Bool.and_eq_true] at hp
      obtain ⟨⟨-, ha⟩, -⟩ := hp
      simpa using ha

/-- Witness for `c8_amended_scoping`: a keyword-fallback row carries
the configured agent id; `forget` membership at a foreign id; a
`findSimilarMemories` result row carries the source row's agent id. -/
theorem c8_witness :
    memE.agent_id = cfgN.agentId
    ∧ (memB2 ∈ forget [memA, memB2] "zzz" ↔
        memB2 ∈ [memA, memB2] ∧ ¬ memB2.id = "zzz")
    ∧ memF.agent_id = memE.agent_id := by
  have h := c8_amended_scoping cfgN simOne [memE, memF] "hello" "me" {}
  have h2 := c8_amended_scoping cfgN simOne [memA, memB2] "q" "zzz" {}
  exact ⟨h.1 memE (by decide), h2.2.2.1 memB2,
    h.2.2.2 memE {} [memF] (by decide) (by decide) memF (by decide)⟩

/-- **C9**: a `remember` call that omits `importance` inserts the row
with importance exactly `0.5` (`memory.importance ?? 0.5`), and one
that omits `metadata` inserts the empty object (`memory.metadata || {}`);
both defaults are computed in the engine's insert payload, and the new
store state is the old one extended by exactly the inserted row. -/
theorem c9_remember_defaults (cfg : OpenClawMemoryConfig)
    (oracle : EmbOracle) (store : List Memory) (args : RememberArgs)
    (newId : String) (now : Nat) (row : Memory) (store2 : List Memory)
    (himp : args.importance = none) (hmeta : args.metadata = none)
    (h : remember cfg oracle store args newId now = .ok (row, store2)) :
    row.importance = mkRat 1 2 ∧ row.metadata = []
    ∧ store2 = store ++ [row] := by
  unfold remember at h
  cases hg : generateEmbedding cfg oracle args.content with
  | error e => rw [hg] at h; exact Except.noConfusion h
  | ok emb =>
    rw [hg] at h
    injection Except.ok.inj h with h3 h4
    subst h3
    subst h4
    simp [himp, hmeta]

/-- Witness for `c9_remember_defaults`: remembering `"x"` with every
optional field omitted. -/
theorem c9_witness :
    rowX.importance = mkRat 1 2 ∧ rowX.metadata = []
    ∧ [rowX] = [] ++ [rowX] :=
  c9_remember_defaults cfgN oracleN [] { content := "x" } "id1" 7 rowX
    [rowX] rfl rfl (by decide)

/-- **C10**: the keyword fallback filters content with the pattern
`'%' + query + '%'`, which for the empty query is `'%%'` and matches
every content; so with no embedding available, `recall("")` with only a
positive `limit` returns the agent's rows ordered by importance
descending then `created_at` descending, capped at `limit`, regardless
of content. -/
theorem c10_empty_query_returns_top (cfg : OpenClawMemoryConfig)
    (oracle : EmbOracle) (sim : List ℚ → List ℚ → ℚ) (store : List Memory)
    (n : Int) (h : generateEmbedding cfg oracle "" = .ok none)
    (hn : 0 < n) :
    (∀ content, ilikeMatch content "" = true)
    ∧ «recall» cfg oracle sim store "" { limit := some n } =
        .ok ((sortMemories (store.filter
          (fun m => m.agent_id == cfg.agentId))).take n.toNat) := by
  refine ⟨ilikeMatch_empty, ?_⟩
  unfold «recall»
  rw [h]
  unfold keywordFallback
  have hfil : store.filter
      (keywordPasses cfg.agentId "" { limit := some n }) =
      store.filter (fun m => m.agent_id == cfg.agentId) := by
    apply List.filter_congr
    intro m _
    unfold keywordPasses
    simp [ilikeMatch_empty]
  have heff : effLimit (some n) = n.toNat := by
    show ((if n = 0 then 10 else n) : Int).toNat = n.toNat
    rw [if_neg (by omega : ¬ n = 0)]
  rw [hfil, heff]

/-- Witness for `c10_empty_query_returns_top`: a two-row store under a
keyword-only engine; `recall("")` with `limit = 1` keeps the most
important row without looking at its content. -/
theorem c10_witness :
    «recall» cfgN oracleN simZ [memA, memB] "" { limit := some 1 } =
      .ok ((sortMemories ([memA, memB].filter
        (fun m => m.agent_id == cfgN.agentId))).take (1 : Int).toNat)
    ∧ ilikeMatch "anything" "" = true := by
  have h := c10_empty_query_returns_top cfgN oracleN simZ [memA, memB] 1
    (by decide) (by decide)
  exact ⟨h.2, h.1 "anything"⟩

/-- **C6** is false on the code for `maxMemories = 0`: `getContext`
passes `limit: opts.maxMemories || 5`, so a zero `maxMemories` is
replaced by `5` and five memories are returned, whereas a `recall` call
with `limit = maxMemories = 0` — what the claim prescribes — returns
all six rows (a zero limit falls back to the cap `10`). -/
theorem c6_counterexample :
    (getContext cfgN oracleN simZ store6 [] "hello"
        { maxMemories := some 0 }).map (fun p => p.memories.length) =
      .ok 5
    ∧ («recall» cfgN oracleN simZ store6 "hello"
        { limit := some 0 }).map List.length = .ok 6
    ∧ (5 : Nat) ≠ 0 := by decide
